import Mathlib

/-!
Shallow embedding of the portugal-parcels scraper.

The repository holds two near-duplicate copies of the scraper:
  * `src/scraper.py`                          (the "root" copy)
  * `src/src/portugal_parcels/scraper.py`     (the "pkg" copy)

Both drain two paged remote sources (an INSPIRE WFS endpoint with
`batch_size = 50000`, an ArcGIS RGG endpoint with `batch_size = 2000`)
into per-batch artifact files named `f"{batch_num:04d}.geojson"`, then
`normalize_and_merge` reads the artifacts back (lexicographically sorted
file names), normalizes each source's attribute schema with pandas
`DataFrame.get` and concatenates INSPIRE then RGG.

The embedding below models, from the source code:
  * batch enumeration (`num_batches = (total + batch_size - 1) // batch_size`,
    `startIndex = (batch_num - 1) * batch_size`, `count = batch_size`);
  * the `asyncio.Semaphore(MAX_CONCURRENT)` gating of `download_batch`
    as a transition system;
  * the per-batch fetch of both copies (the pkg copy checks
    `output_file.exists()` before fetching, the root copy does not);
  * count discovery (`int(root.attrib.get('numberMatched', 0))` and
    `(await resp.json()).get('count', 0)`);
  * file naming `f"{batch_num:04d}.geojson"` and Python string order;
  * `normalize_and_merge` over both sources, with pandas semantics for
    `DataFrame.get` (column-level lookup) and `pd.concat` (raises on an
    empty list of frames).
-/

/-! ## Batch enumeration (both copies, both sources)

`num_batches = (total + batch_size - 1) // batch_size`; the per-batch
request carries `startIndex`/`resultOffset = (batch_num - 1) * batch_size`
and `count`/`resultRecordCount = batch_size`, and the batches launched are
`[download_batch(i+1) for i in range(num_batches)]`. -/

/-- Batch count `num_batches = (total + batch_size - 1) // batch_size` from both copies. -/
def numBatches (total batchSize : Nat) : Nat :=
  (total + batchSize - 1) / batchSize

/-- One per-batch page request: 1-based batch number, result offset and
requested record count, exactly the values substituted into the query
parameters by `download_batch`. -/
structure BatchRequest where
  batchNum : Nat
  offset : Nat
  count : Nat
  deriving DecidableEq, Repr

/-- The page request issued for 1-based batch `i`:
`startIndex = (batch_num - 1) * batch_size`, `count = batch_size`. -/
def batchRequest (batchSize i : Nat) : BatchRequest :=
  ⟨i, (i - 1) * batchSize, batchSize⟩

/-- The full enumeration `[download_batch(i+1) for i in range(num_batches)]`. -/
def fetchPlan (total batchSize : Nat) : List BatchRequest :=
  (List.range (numBatches total batchSize)).map (fun i => batchRequest batchSize (i + 1))

/-! ## The counting limiter (`asyncio.Semaphore(MAX_CONCURRENT)`)

Each `download_batch` body runs entirely inside `async with semaphore:`.
We model the scheduler as a transition system: a task may start (enter the
`async with`) only when a permit is free, and releases its permit when it
finishes.  `MAX_CONCURRENT = 5`. -/

/-- Constant `MAX_CONCURRENT = 5` from both copies. -/
def MAX_CONCURRENT : Nat := 5

/-- Scheduler state: batches not yet started, batches currently inside the
semaphore (in flight), and free semaphore permits. -/
structure SemState where
  pending : Nat
  inFlight : Nat
  permits : Nat
  deriving DecidableEq, Repr

/-- Initial state: `numBatches` pending tasks, none started, all
`concurrency` permits free. -/
def initState (nb concurrency : Nat) : SemState :=
  ⟨nb, 0, concurrency⟩

/-- One scheduler step: a pending task acquires a free permit and becomes
in-flight, or an in-flight task finishes and releases its permit.  A task
can enter the `async with semaphore:` block only when `permits > 0`. -/
inductive SemStep : SemState → SemState → Prop
  | start (p f c : Nat) : SemStep ⟨p + 1, f, c + 1⟩ ⟨p, f + 1, c⟩
  | finish (p f c : Nat) : SemStep ⟨p, f + 1, c⟩ ⟨p, f, c + 1⟩

/-- Reachability under the scheduler. -/
inductive SemReach : SemState → SemState → Prop
  | refl (s : SemState) : SemReach s s
  | tail {s t u : SemState} : SemReach s t → SemStep t u → SemReach s u

/-! ## Artifact file names

Both copies write each batch to `f"{batch_num:04d}.geojson"`, and
`normalize_and_merge` reads the files back with
`sorted(dir.glob("*.geojson"))`, i.e. in Python string order, which
compares Unicode code points position by position.  We model a file name
as its list of code points: the decimal digits of the batch number,
left-padded with `'0'` (code 48) to width 4, followed by `".geojson"`. -/

/-- Decimal digits of `n`, most significant first, via repeated division
by 10; the first argument is structural fuel (`toDec` passes `n` itself,
which is always enough). -/
def toDecAux : Nat → Nat → List Nat
  | 0, n => [n % 10]
  | fuel + 1, n => if n < 10 then [n] else toDecAux fuel (n / 10) ++ [n % 10]

/-- Decimal digits of `n`, most significant first (the digits of Python
`str(n)` / `"%d" % n`). -/
def toDec (n : Nat) : List Nat := toDecAux n n

/-- Left-pad a digit list with zeros to width `w` (Python `"%0*d"`
padding; never truncates). -/
def padDigits (w : Nat) (l : List Nat) : List Nat :=
  List.replicate (w - l.length) 0 ++ l

/-- Code points of the `".geojson"` file extension. -/
def geojsonExt : List Nat := [46, 103, 101, 111, 106, 115, 111, 110]

/-- Code points of the artifact file name `f"{n:04d}.geojson"`: each
digit `d` becomes code point `48 + d`. -/
def batchName (n : Nat) : List Nat :=
  (padDigits 4 (toDec n)).map (fun d => 48 + d) ++ geojsonExt

/-- Python string `<` on code-point lists: strict lexicographic order. -/
def lexLt : List Nat → List Nat → Bool
  | [], [] => false
  | [], _ :: _ => true
  | _ :: _, [] => false
  | a :: as, b :: bs => if a < b then true else if b < a then false else lexLt as bs

/-- File-name order of two batch indices: `i` sorts no later than `j`
under Python `sorted`, i.e. not `batchName j < batchName i`. -/
def nameLe (i j : Nat) : Prop := lexLt (batchName j) (batchName i) = false

/-! ## Feature values and the pandas-level data model

A GeoJSON feature's properties are a key/value list; a property that is
explicitly `null` and a property that is absent both read back as
missing data (`None`/`NaN`) in GeoPandas, which `Value.null` models.
`pd.concat` of the per-file frames makes a column exist iff some feature
in some file of that source has the key, with `NaN` cells elsewhere. -/

/-- A property value: string, number (JSON numbers as rationals), or
missing/`null`/`NaN`. -/
inductive Value where
  | str : String → Value
  | num : ℚ → Value
  | null : Value
  deriving DecidableEq, Repr

/-- One source feature: its properties and its (opaque) geometry. -/
structure Feature where
  props : List (String × Value)
  geom : Value
  deriving DecidableEq, Repr

/-- Whether the concatenated source frame has column `k`: true iff any
feature of the source collection carries the key (pandas `concat` takes
the union of the per-file columns). -/
def columnPresent (fs : List Feature) (k : String) : Bool :=
  fs.any (fun f => f.props.any (fun p => p.1 == k))

/-- The cell of feature `f` in column `k`: the feature's value for the
key, or `NaN` (`Value.null`) when the feature lacks it. -/
def getCell (f : Feature) (k : String) : Value :=
  (f.props.lookup k).getD Value.null

/-- The normalized output record built by `normalize_and_merge`:
columns `id`, `reference`, `area_m2`, `source`, `geometry`. -/
structure CanonicalFeature where
  id : Value
  reference : Value
  area_m2 : Value
  source : String
  geom : Value
  deriving DecidableEq, Repr

/-- Pandas `Series.astype(str)` cell-wise: strings unchanged, numbers
via Python `str` (only exercised on integral values — ArcGIS
`objectid` — in this repository), `NaN` becomes the string `"nan"`. -/
def astypeStr : Value → Value
  | Value.str s => Value.str s
  | Value.num q => Value.str (if q.den = 1 then toString q.num else toString q)
  | Value.null => Value.str "nan"

/-- Embedding of the INSPIRE normalization
`gpd.GeoDataFrame(\x7b'id': inspire.get('inspireid', inspire.index.astype(str)),
'reference': inspire.get('nationalcadastralreference', ''),
'area_m2': inspire.get('areavalue', None), 'source': 'inspire',
'geometry': inspire.geometry\x7d)` applied after `to_crs` (the geodetic
transform itself is the external library, passed in as `reproj`).
`DataFrame.get(k, default)` is column-level: it yields the column when
it exists anywhere in the collection (with `NaN` cells for features
lacking the key) and the default otherwise; the index fallback
stringifies the positional index of the row. -/
def normInspire (reproj : Value → Value) (inspire : List Feature) : List CanonicalFeature :=
  inspire.enum.map (fun p =>
    ⟨if columnPresent inspire "inspireid" then getCell p.2 "inspireid"
      else Value.str (toString p.1),
     if columnPresent inspire "nationalcadastralreference" then
        getCell p.2 "nationalcadastralreference"
      else Value.str "",
     if columnPresent inspire "areavalue" then getCell p.2 "areavalue" else Value.null,
     "inspire",
     reproj p.2.geom⟩)

/-- Embedding of the RGG normalization
`gpd.GeoDataFrame(\x7b'id': rgg.get('objectid', rgg.index.astype(str)).astype(str),
'reference': '', 'area_m2': rgg.get('st_area(shape)', None),
'source': 'rgg', 'geometry': rgg.geometry\x7d)` (no reprojection: RGG is
requested in EPSG:4326). -/
def normRgg (rgg : List Feature) : List CanonicalFeature :=
  rgg.enum.map (fun p =>
    ⟨astypeStr (if columnPresent rgg "objectid" then getCell p.2 "objectid"
        else Value.str (toString p.1)),
     Value.str "",
     if columnPresent rgg "st_area(shape)" then getCell p.2 "st_area(shape)"
      else Value.null,
     "rgg",
     p.2.geom⟩)

/-- Behaviour of `pd.concat(frames, ignore_index=True)` on the list of
per-file frames: raises `ValueError: No objects to concatenate` when the
list is empty, otherwise stacks the rows in list order. -/
def pdConcat (frames : List (List Feature)) : Except String (List Feature) :=
  if frames.isEmpty then Except.error "No objects to concatenate"
  else Except.ok frames.flatten

/-- File-name order on directory entries `(batchIndex, contents)`, the
order `sorted(dir.glob("*.geojson"))` enumerates artifact files in. -/
def fileLe (a b : Nat × List Feature) : Prop := nameLe a.1 b.1

instance : DecidableRel fileLe := fun _ _ => Bool.decEq _ _

/-- Ascending-batch-index order on directory entries. -/
def idxLe (a b : Nat × List Feature) : Prop := a.1 ≤ b.1

instance : DecidableRel idxLe := fun _ _ => Nat.decLe _ _

/-- Strictly-ascending batch-index order on directory entries. -/
def idxLt (a b : Nat × List Feature) : Prop := a.1 < b.1

/-- An artifact directory for one source: one entry per batch file,
`(batchIndex, features in the file)`. -/
def sortByName (d : List (Nat × List Feature)) : List (Nat × List Feature) :=
  List.insertionSort fileLe d

/-- Directory entries in ascending numeric batch-index order (Python
`sorted` is a stable sort; `insertionSort` models it). -/
def sortByIdx (d : List (Nat × List Feature)) : List (Nat × List Feature) :=
  List.insertionSort idxLe d

/-- The features of one source in ascending numeric batch-index order,
within a batch in the batch's internal order: the reference order of the
spec's MergedCollection. -/
def ascFeatures (d : List (Nat × List Feature)) : List Feature :=
  ((sortByIdx d).map (fun f => f.2)).flatten

/-- Reading one source directory back: enumerate the artifact files in
Python string order of their names, `gpd.read_file` each, and
`pd.concat` the frames. -/
def readSourceDir (d : List (Nat × List Feature)) : Except String (List Feature) :=
  pdConcat ((sortByName d).map (fun f => f.2))

/-- Embedding of `normalize_and_merge` (identical in both copies up to
logging): load and normalize INSPIRE, then load and normalize RGG, then
`pd.concat([inspire_norm, rgg_norm], ignore_index=True)`. -/
def normalizeAndMerge (reproj : Value → Value)
    (inspireDir rggDir : List (Nat × List Feature)) :
    Except String (List CanonicalFeature) := do
  let inspire ← readSourceDir inspireDir
  let rgg ← readSourceDir rggDir
  Except.ok (normInspire reproj inspire ++ normRgg rgg)

/-! ## Per-batch fetch, both copies

`download_batch(batch_num)` in the pkg copy first checks
`output_file.exists()` and returns `True` without any request when the
artifact is there; the root copy has no such check.  Otherwise both
issue one page request; on status 200 with a body that `resp.json()`
parses, the parsed document is written as the artifact and the batch
reports `True`; on any other status, a timeout, or a parse failure the
`return False` path (or the `except Exception` handler) runs, writing
nothing.  The filesystem of one source directory is a map from batch
index to artifact content; artifact content is the parsed feature list
that `json.dump` re-serializes. -/

/-- Outcome of one page request as seen by `download_batch`: a response
with an HTTP status and a body (`none` when `resp.json()` fails to
parse), a timeout, or a transport error. -/
inductive HttpResult where
  | response : Nat → Option (List Feature) → HttpResult
  | timeout : HttpResult
  | netError : HttpResult
  deriving DecidableEq

/-- One source's artifact directory state: batch index to file content. -/
abbrev Fs := Nat → Option (List Feature)

/-- The empty artifact directory. -/
def emptyFs : Fs := fun _ => none

/-- Writing (or overwriting) the artifact file of batch `i`. -/
def fsWrite (fs : Fs) (i : Nat) (doc : List Feature) : Fs :=
  fun j => if j = i then some doc else fs j

/-- The artifact a fully successful fetch of batch `b` would persist:
the parsed body of a status-200 response, and nothing otherwise. -/
def successDoc (oracle : Nat → HttpResult) (b : Nat) : Option (List Feature) :=
  match oracle b with
  | HttpResult.response 200 (some doc) => some doc
  | _ => none

/-- Result of one `download_batch` call: the page requests it issued
(batch numbers), the artifact directory afterwards, and its return
value. -/
structure BatchOutcome where
  requests : List Nat
  fs : Fs
  ok : Bool

/-- Embedding of `download_batch` from `src/src/portugal_parcels/scraper.py`:
skip with success when the artifact file exists; otherwise issue the
page request; on status 200 with a body `resp.json()` parses
(`successDoc` is `some`), write the artifact and return `True`; on any
other status, a timeout, a transport error or a parse failure
(`successDoc` is `none`), write nothing and return `False`. -/
def downloadBatchPkg (oracle : Nat → HttpResult) (fs : Fs) (b : Nat) : BatchOutcome :=
  if (fs b).isSome then ⟨[], fs, true⟩
  else
    match successDoc oracle b with
    | some doc => ⟨[b], fsWrite fs b doc, true⟩
    | none => ⟨[b], fs, false⟩

/-- Embedding of `download_batch` from `src/scraper.py`: identical to
the pkg copy except that there is no artifact-existence check — the
page request is always issued, and a success overwrites any existing
artifact. -/
def downloadBatchRoot (oracle : Nat → HttpResult) (fs : Fs) (b : Nat) : BatchOutcome :=
  match successDoc oracle b with
  | some doc => ⟨[b], fsWrite fs b doc, true⟩
  | none => ⟨[b], fs, false⟩

/-- Accumulated observable state of one `asyncio.gather` run over the
per-batch tasks: every page request issued, the artifact directory, and
one `(batch, returnValue)` report per task. -/
structure RunState where
  requests : List Nat
  fs : Fs
  reports : List (Nat × Bool)

/-- Running the per-batch tasks of one fetch invocation.  The tasks run
under `asyncio.gather`, but each touches only its own artifact file and
returns a value depending only on that file and its own response, so
the sequential composition below is observationally equivalent to any
interleaving. -/
def runFetch (dl : (Nat → HttpResult) → Fs → Nat → BatchOutcome)
    (oracle : Nat → HttpResult) (fs0 : Fs) : List Nat → RunState
  | [] => ⟨[], fs0, []⟩
  | b :: rest =>
    let r := dl oracle fs0 b
    let s := runFetch dl oracle r.fs rest
    ⟨r.requests ++ s.requests, s.fs, (b, r.ok) :: s.reports⟩

/-! ## Count discovery

INSPIRE: `total = int(root.attrib.get('numberMatched', 0))` over the
parsed XML of the hits response; `ET.fromstring` raises on malformed
XML and nothing catches it, while a missing `numberMatched` attribute
silently defaults to `0`.  RGG: `total = (await resp.json()).get('count', 0)`;
`resp.json()` raises on a malformed body and nothing catches it, while
a missing `count` field silently defaults to `0`. -/

/-- The WFS hits response: malformed XML, or a parsed root element with
its attributes (`numberMatched` values are decimal strings when
well-formed). -/
inductive XmlCountResponse where
  | malformed : XmlCountResponse
  | parsed : List (String × String) → XmlCountResponse

/-- The ArcGIS count response: malformed JSON, or an object with
integer fields. -/
inductive JsonCountResponse where
  | malformed : JsonCountResponse
  | obj : List (String × Nat) → JsonCountResponse

/-- INSPIRE count discovery.  `Except.error` models an uncaught raised
exception (there is no `CountDiscoveryError` anywhere in the code):
`ET.fromstring` raising on malformed XML, or `int()` raising on a
non-numeric attribute value. -/
def inspireDiscover : XmlCountResponse → Except String Nat
  | XmlCountResponse.malformed => Except.error "xml.etree.ElementTree.ParseError"
  | XmlCountResponse.parsed attrs =>
    match attrs.lookup "numberMatched" with
    | none => Except.ok 0
    | some s =>
      match s.toNat? with
      | some n => Except.ok n
      | none => Except.error "ValueError"

/-- RGG count discovery.  `Except.error` models `resp.json()` raising
(uncaught) on a malformed body; a missing `count` field defaults to 0. -/
def rggDiscover : JsonCountResponse → Except String Nat
  | JsonCountResponse.malformed => Except.error "json.JSONDecodeError"
  | JsonCountResponse.obj fields => Except.ok ((fields.lookup "count").getD 0)

/-! # Theorems -/

/-- Permits plus in-flight tasks is invariant under one step. -/
theorem semStep_flight_add_permits {s t : SemState} (h : SemStep s t) :
    t.inFlight + t.permits = s.inFlight + s.permits := by
  cases h <;> simp <;> omega

/-- Permits plus in-flight tasks is invariant along any run. -/
theorem semReach_flight_add_permits {s t : SemState} (h : SemReach s t) :
    t.inFlight + t.permits = s.inFlight + s.permits := by
  induction h with
  | refl => rfl
  | tail _ hstep ih => rw [semStep_flight_add_permits hstep, ih]

/-! ### Lexicographic order on code-point lists -/

/-- Strict lexicographic order is irreflexive. -/
theorem lexLt_irrefl : ∀ l : List Nat, lexLt l l = false
  | [] => rfl
  | a :: as => by simp [lexLt, lexLt_irrefl as]

/-- Strict lexicographic order is asymmetric. -/
theorem lexLt_asymm : ∀ {x y : List Nat}, lexLt x y = true → lexLt y x = false
  | [], [], h => by simp [lexLt] at h
  | [], _ :: _, _ => rfl
  | _ :: _, [], h => by simp [lexLt] at h
  | a :: as, b :: bs, h => by
    simp only [lexLt] at h ⊢
    split_ifs at h ⊢ with h1 h2 h3 <;>
      first
        | omega
        | rfl
        | exact lexLt_asymm h

/-- Strict lexicographic order is transitive. -/
theorem lexLt_trans : ∀ {x y z : List Nat},
    lexLt x y = true → lexLt y z = true → lexLt x z = true
  | [], _, _ :: _, _, _ => rfl
  | [], _ :: _, [], _, h2 => by simp [lexLt] at h2
  | [], [], _, h1, _ => by simp [lexLt] at h1
  | _ :: _, [], _, h1, _ => by simp [lexLt] at h1
  | _ :: _, _ :: _, [], _, h2 => by simp [lexLt] at h2
  | a :: as, b :: bs, c :: cs, h1, h2 => by
    simp only [lexLt] at h1 h2 ⊢
    split_ifs at h1 h2 ⊢ with h3 h4 h5 h6 h7 h8 <;>
      first
        | omega
        | rfl
        | exact lexLt_trans h1 h2

/-- Failing the strict order means equal or strictly greater:
lexicographic order on code-point lists is total. -/
theorem lexLt_eq_false_iff : ∀ x y : List Nat,
    lexLt x y = false ↔ (x = y ∨ lexLt y x = true)
  | [], [] => by simp [lexLt]
  | [], b :: bs => by simp [lexLt]
  | a :: as, [] => by simp [lexLt]
  | a :: as, b :: bs => by
    simp only [lexLt]
    rcases Nat.lt_trichotomy a b with h | h | h
    · have hba : ¬ b < a := by omega
      have hne : a ≠ b := by omega
      simp [h, hba, hne]
    · subst h
      have hlt : ¬ a < a := by omega
      simp [hlt, lexLt_eq_false_iff as bs, List.cons.injEq]
    · have hab : ¬ a < b := by omega
      have hne : a ≠ b := by omega
      simp [h, hab, hne]

/-! ### Decimal digits of batch numbers -/

/-- With any amount of fuel, a single-digit number yields one digit. -/
theorem toDecAux_small (fuel n : Nat) (h : n < 10) : toDecAux fuel n = [n] := by
  cases fuel with
  | zero => simp [toDecAux, Nat.mod_eq_of_lt h]
  | succ f => simp [toDecAux, h]

/-- With positive fuel, a multi-digit number splits off its last digit. -/
theorem toDecAux_step (fuel n : Nat) (h : ¬ n < 10) :
    toDecAux (fuel + 1) n = toDecAux fuel (n / 10) ++ [n % 10] := by
  simp [toDecAux, h]

/-- The zero-padded digit list of `f"{n:04d}"` for `n ≤ 9999` is the four
base-10 digits of `n`. -/
theorem padDigits_toDec (n : Nat) (h : n ≤ 9999) :
    padDigits 4 (toDec n) = [n / 1000, n / 100 % 10, n / 10 % 10, n % 10] := by
  unfold toDec
  by_cases h1 : n < 10
  · rw [toDecAux_small n n h1]
    simp [padDigits, List.replicate]
    omega
  · have e1 : toDecAux n n = toDecAux (n - 1 + 1) n := by
      have hn1 : n - 1 + 1 = n := by omega
      rw [hn1]
    rw [e1, toDecAux_step (n - 1) n h1]
    by_cases h2 : n < 100
    · have h10 : n / 10 < 10 := by omega
      rw [toDecAux_small (n - 1) (n / 10) h10]
      simp [padDigits, List.replicate]
      omega
    · have h10 : ¬ n / 10 < 10 := by omega
      have e2 : toDecAux (n - 1) (n / 10) = toDecAux (n - 2 + 1) (n / 10) := by
        have hn2 : n - 2 + 1 = n - 1 := by omega
        rw [hn2]
      rw [e2, toDecAux_step (n - 2) (n / 10) h10]
      by_cases h3 : n < 1000
      · have h100 : n / 10 / 10 < 10 := by omega
        rw [toDecAux_small (n - 2) (n / 10 / 10) h100]
        simp [padDigits, List.replicate]
        omega
      · have h100 : ¬ n / 10 / 10 < 10 := by omega
        have e3 : toDecAux (n - 2) (n / 10 / 10) = toDecAux (n - 3 + 1) (n / 10 / 10) := by
          have hn3 : n - 3 + 1 = n - 2 := by omega
          rw [hn3]
        rw [e3, toDecAux_step (n - 3) (n / 10 / 10) h100]
        have h1000 : n / 10 / 10 / 10 < 10 := by omega
        rw [toDecAux_small (n - 3) (n / 10 / 10 / 10) h1000]
        simp [padDigits, List.replicate]
        omega

/-- Unfolding one position of the strict lexicographic order. -/
theorem lexLt_cons_true_iff (a b : Nat) (as bs : List Nat) :
    lexLt (a :: as) (b :: bs) = true ↔ (a < b ∨ (a = b ∧ lexLt as bs = true)) := by
  simp only [lexLt]
  rcases Nat.lt_trichotomy a b with h | h | h
  · have h2 : ¬ b < a := by omega
    simp [h, h2]
  · subst h
    simp [Nat.lt_irrefl]
  · have h1 : ¬ a < b := by omega
    have hne : a ≠ b := by omega
    simp [h, h1, hne]

/-- A list is never strictly below itself. -/
theorem lexLt_self_true_iff (l : List Nat) : lexLt l l = true ↔ False := by
  simp [lexLt_irrefl]

/-- For batch indices up to 9999, file-name order agrees with numeric
order: the zero padding makes the names equal-length digit strings. -/
theorem batchName_lt_iff (i j : Nat) (hi : i ≤ 9999) (hj : j ≤ 9999) :
    (lexLt (batchName i) (batchName j) = true) ↔ i < j := by
  unfold batchName
  rw [padDigits_toDec i hi, padDigits_toDec j hj]
  simp only [List.map_cons, List.map_nil, List.cons_append, List.nil_append,
    lexLt_cons_true_iff, lexLt_self_true_iff]
  constructor
  · rintro (h | ⟨e3, h | ⟨e2, h | ⟨e1, h | ⟨e0, hF⟩⟩⟩⟩)
    · omega
    · omega
    · omega
    · omega
    · exact hF.elim
  · intro hij
    by_cases c3 : i / 1000 < j / 1000
    · exact Or.inl (by omega)
    · refine Or.inr ⟨by omega, ?_⟩
      by_cases c2 : i / 100 % 10 < j / 100 % 10
      · exact Or.inl (by omega)
      · refine Or.inr ⟨by omega, ?_⟩
        by_cases c1 : i / 10 % 10 < j / 10 % 10
        · exact Or.inl (by omega)
        · refine Or.inr ⟨by omega, ?_⟩
          by_cases c0 : i % 10 < j % 10
          · exact Or.inl (by omega)
          · exact (by omega : False).elim

/-! ### Python `sorted` on artifact file names versus numeric batch order -/

instance : IsTotal (Nat × List Feature) fileLe :=
  ⟨fun a b => by
    unfold fileLe nameLe
    cases hv : lexLt (batchName a.1) (batchName b.1) with
    | false => exact Or.inr rfl
    | true => exact Or.inl (lexLt_asymm hv)⟩

instance : IsTrans (Nat × List Feature) fileLe :=
  ⟨fun a b c hab hbc => by
    unfold fileLe nameLe at hab hbc ⊢
    rcases (lexLt_eq_false_iff _ _).mp hab with he | hlt
    · rw [← he]
      exact hbc
    · rcases (lexLt_eq_false_iff _ _).mp hbc with he2 | hlt2
      · rw [he2]
        exact hab
      · exact lexLt_asymm (lexLt_trans hlt hlt2)⟩

instance : IsTotal (Nat × List Feature) idxLe := ⟨fun a b => Nat.le_total a.1 b.1⟩

instance : IsTrans (Nat × List Feature) idxLe := ⟨fun _ _ _ => Nat.le_trans⟩

instance : IsAntisymm (Nat × List Feature) idxLt :=
  ⟨fun _ _ h1 h2 => absurd (Nat.lt_trans h1 h2) (Nat.lt_irrefl _)⟩

/-- A sorted enumeration whose entries have distinct indices is strictly
sorted by index. -/
theorem pairwise_idxLt_of_le (d l : List (Nat × List Feature))
    (hperm : List.Perm l d) (hn : (d.map Prod.fst).Nodup)
    (hpw : List.Pairwise (fun a b => a.1 ≤ b.1) l) : List.Pairwise idxLt l := by
  have hnd : (l.map Prod.fst).Nodup := ((hperm.map Prod.fst).nodup_iff).mpr hn
  have hne : List.Pairwise (fun a b : Nat × List Feature => a.1 ≠ b.1) l :=
    List.pairwise_map.mp hnd
  exact (hpw.and hne).imp (fun h => Nat.lt_of_le_of_ne h.1 h.2)

/-- On a directory whose batch indices are distinct and at most 9999,
reading the artifact files in Python string order of their names equals
reading them in ascending numeric batch-index order: the writer's
zero-padded naming makes the two orders agree. -/
theorem sortByName_eq_sortByIdx (d : List (Nat × List Feature))
    (hb : ∀ p ∈ d, p.1 ≤ 9999) (hn : (d.map Prod.fst).Nodup) :
    sortByName d = sortByIdx d := by
  have hp1 : List.Perm (sortByName d) d := List.perm_insertionSort fileLe d
  have hp2 : List.Perm (sortByIdx d) d := List.perm_insertionSort idxLe d
  have hs1 : List.Sorted fileLe (sortByName d) := List.sorted_insertionSort fileLe d
  have hs2 : List.Sorted idxLe (sortByIdx d) := List.sorted_insertionSort idxLe d
  have hle1 : List.Pairwise (fun a b : Nat × List Feature => a.1 ≤ b.1) (sortByName d) := by
    refine List.Pairwise.imp_of_mem ?_ hs1
    intro a b ha hb'
    intro hab
    have ha9 : a.1 ≤ 9999 := hb a (hp1.subset ha)
    have hb9 : b.1 ≤ 9999 := hb b (hp1.subset hb')
    unfold fileLe nameLe at hab
    by_contra hlt
    have : lexLt (batchName b.1) (batchName a.1) = true :=
      (batchName_lt_iff b.1 a.1 hb9 ha9).mpr (by omega)
    rw [this] at hab
    exact Bool.noConfusion hab
  have hle2 : List.Pairwise (fun a b : Nat × List Feature => a.1 ≤ b.1) (sortByIdx d) := hs2
  exact List.eq_of_perm_of_sorted (hp1.trans hp2.symm)
    (pairwise_idxLt_of_le d _ hp1 hn hle1) (pairwise_idxLt_of_le d _ hp2 hn hle2)

/-! ### Behaviour of one fetch invocation (pkg copy) -/

/-- At its own index, one pkg `download_batch` call leaves the existing
artifact or writes the successful document. -/
theorem downloadBatchPkg_fs_self (oracle : Nat → HttpResult) (fs : Fs) (b : Nat) :
    (downloadBatchPkg oracle fs b).fs b = Option.or (fs b) (successDoc oracle b) := by
  unfold downloadBatchPkg
  cases hfs : fs b with
  | some x => simp [hfs]
  | none =>
    cases hd : successDoc oracle b with
    | some doc => simp [hfs, hd, fsWrite]
    | none => simp [hfs, hd]

/-- One pkg `download_batch` call never touches another batch's file. -/
theorem downloadBatchPkg_fs_other (oracle : Nat → HttpResult) (fs : Fs) (b c : Nat)
    (h : c ≠ b) : (downloadBatchPkg oracle fs b).fs c = fs c := by
  unfold downloadBatchPkg
  cases hfs : fs b with
  | some x => simp
  | none =>
    cases hd : successDoc oracle b with
    | some doc => simp [fsWrite, h]
    | none => simp

/-- The pkg copy issues its page request exactly when the artifact is
absent. -/
theorem downloadBatchPkg_requests (oracle : Nat → HttpResult) (fs : Fs) (b : Nat) :
    (downloadBatchPkg oracle fs b).requests = if (fs b).isSome then [] else [b] := by
  unfold downloadBatchPkg
  cases hfs : fs b with
  | some x => simp
  | none =>
    cases hd : successDoc oracle b with
    | some doc => simp
    | none => simp

/-- The pkg copy's return value: `True` iff the artifact already existed
or the page request fully succeeded. -/
theorem downloadBatchPkg_ok (oracle : Nat → HttpResult) (fs : Fs) (b : Nat) :
    (downloadBatchPkg oracle fs b).ok
      = ((fs b).isSome || (successDoc oracle b).isSome) := by
  unfold downloadBatchPkg
  cases hfs : fs b with
  | some x => simp
  | none =>
    cases hd : successDoc oracle b with
    | some doc => simp
    | none => simp

/-- Right-absorption of `Option.or` used when a batch is re-examined. -/
theorem Option.or_or_self {α : Type} (a b : Option α) :
    Option.or (Option.or a b) b = Option.or a b := by
  cases a <;> cases b <;> rfl

/-- Final artifact state of a pkg fetch run, at every index: an index in
the attempted list keeps its prior artifact or gains the successful
document; any other index is untouched. -/
theorem runFetch_pkg_fs (oracle : Nat → HttpResult) :
    ∀ (batches : List Nat) (fs0 : Fs) (b : Nat),
    (runFetch downloadBatchPkg oracle fs0 batches).fs b
      = if b ∈ batches then Option.or (fs0 b) (successDoc oracle b) else fs0 b
  | [], fs0, b => by simp [runFetch]
  | x :: rest, fs0, b => by
    simp only [runFetch]
    rw [runFetch_pkg_fs oracle rest _ b]
    by_cases hbx : b = x
    · subst hbx
      rw [downloadBatchPkg_fs_self]
      by_cases hmem : b ∈ rest <;>
        simp [hmem, List.mem_cons, Option.or_or_self]
    · rw [downloadBatchPkg_fs_other oracle fs0 x b hbx]
      simp [List.mem_cons, hbx]

/-- Page requests of a pkg fetch run over distinct batches: exactly the
batches whose artifact was absent at the start, in order. -/
theorem runFetch_pkg_requests (oracle : Nat → HttpResult) :
    ∀ (batches : List Nat) (fs0 : Fs), batches.Nodup →
    (runFetch downloadBatchPkg oracle fs0 batches).requests
      = batches.filter (fun b => (fs0 b).isNone)
  | [], fs0, _ => by simp [runFetch]
  | x :: rest, fs0, hnd => by
    have hx : x ∉ rest := (List.nodup_cons.mp hnd).1
    have hrest : rest.Nodup := (List.nodup_cons.mp hnd).2
    simp only [runFetch]
    rw [runFetch_pkg_requests oracle rest _ hrest, downloadBatchPkg_requests]
    have hcong : rest.filter (fun b => ((downloadBatchPkg oracle fs0 x).fs b).isNone)
        = rest.filter (fun b => (fs0 b).isNone) := by
      refine List.filter_congr ?_
      intro b hb
      rw [downloadBatchPkg_fs_other oracle fs0 x b (fun he => hx (he ▸ hb))]
    rw [hcong, List.filter_cons]
    cases hfs : fs0 x with
    | some v => simp
    | none => simp

/-- Reports of a pkg fetch run over distinct batches: one report per
batch in order, `True` iff that batch's artifact existed at the start or
its own page request succeeded — independent of every other batch. -/
theorem runFetch_pkg_reports (oracle : Nat → HttpResult) :
    ∀ (batches : List Nat) (fs0 : Fs), batches.Nodup →
    (runFetch downloadBatchPkg oracle fs0 batches).reports
      = batches.map (fun b => (b, ((fs0 b).isSome || (successDoc oracle b).isSome)))
  | [], fs0, _ => by simp [runFetch]
  | x :: rest, fs0, hnd => by
    have hx : x ∉ rest := (List.nodup_cons.mp hnd).1
    have hrest : rest.Nodup := (List.nodup_cons.mp hnd).2
    simp only [runFetch]
    rw [runFetch_pkg_reports oracle rest _ hrest, downloadBatchPkg_ok]
    congr 1
    refine List.map_congr_left ?_
    intro b hb
    rw [downloadBatchPkg_fs_other oracle fs0 x b (fun he => hx (he ▸ hb))]

/-! ## Claim theorems -/

/-- C2: during a single fetch invocation, no matter the number of
batches, at no reachable scheduler state are more than `MAX_CONCURRENT`
(5) per-batch fetch operations in flight: every `download_batch` body
runs inside `async with semaphore:`, and permits plus in-flight tasks
is conserved. -/
theorem fetch_concurrency_bounded (nb : Nat) (s : SemState)
    (h : SemReach (initState nb MAX_CONCURRENT) s) :
    s.inFlight ≤ MAX_CONCURRENT := by
  have hinv := semReach_flight_add_permits h
  simp [initState] at hinv
  omega

/-- Witness for C2: a state with one task in flight, reached from 3
pending batches by one acquisition, respects the bound. -/
theorem fetch_concurrency_bounded_witness :
    (⟨2, 1, 4⟩ : SemState).inFlight ≤ MAX_CONCURRENT :=
  fetch_concurrency_bounded 3 ⟨2, 1, 4⟩
    (SemReach.tail (SemReach.refl (initState 3 MAX_CONCURRENT)) (SemStep.start 2 0 4))

/-- C3: for every total and positive batch size, the fetch enumerates
`ceil(total / batchSize)` batches — `numBatches` is the least `m` with
`total ≤ batchSize * m` — and the 1-based batch `k + 1` requests offset
`k * batchSize` with requested count `batchSize`, never truncated. -/
theorem batch_enumeration (total bs : Nat) (h : 0 < bs) :
    (fetchPlan total bs).length = numBatches total bs
    ∧ (∀ m, numBatches total bs ≤ m ↔ total ≤ bs * m)
    ∧ (∀ k, k < numBatches total bs →
        (fetchPlan total bs)[k]? = some ⟨k + 1, k * bs, bs⟩) := by
  refine ⟨by simp [fetchPlan], ?_, ?_⟩
  · intro m
    unfold numBatches
    constructor
    · intro hle
      by_contra hgt
      have h2 : m + 1 ≤ (total + bs - 1) / bs := by
        rw [Nat.le_div_iff_mul_le h, Nat.succ_mul, Nat.mul_comm m bs]
        omega
      omega
    · intro hub
      have h2 : (total + bs - 1) / bs < m + 1 := by
        rw [Nat.div_lt_iff_lt_mul h, Nat.succ_mul, Nat.mul_comm m bs]
        omega
      omega
  · intro k hk
    unfold fetchPlan
    rw [List.getElem?_map, List.getElem?_range hk]
    simp [batchRequest]

/-- Witness for C3: `total = 125000`, `batchSize = 50000` yields 3
batches, and batch 3 requests offset 100000 with count 50000. -/
theorem batch_enumeration_witness :
    numBatches 125000 50000 = 3
    ∧ (fetchPlan 125000 50000).length = numBatches 125000 50000
    ∧ (fetchPlan 125000 50000)[2]? = some ⟨3, 100000, 50000⟩ := by
  have h := batch_enumeration 125000 50000 (by decide)
  exact ⟨by decide, h.1, h.2.2 2 (by decide)⟩

/-- C9 counterexample: at batch indices 9999 and 10000 the claimed
agreement between file-name order and numeric order fails — the width-4
zero padding makes `"10000.geojson"` sort before `"9999.geojson"`. -/
theorem artifact_name_order_breaks_at_10000 :
    lexLt (batchName 10000) (batchName 9999) = true ∧ ¬ (10000 < 9999) := by
  constructor
  · decide
  · decide

/-- C9 (amended): for batch indices up to 9999 — i.e. as long as the
zero-padded width-4 names do not overflow — the artifact file names
compare in Python string order exactly as the indices compare
numerically. -/
theorem artifact_name_order_matches_index (i j : Nat) (hi : i ≤ 9999) (hj : j ≤ 9999) :
    (lexLt (batchName i) (batchName j) = true) ↔ i < j :=
  batchName_lt_iff i j hi hj

/-- Witness for C9: indices 3 and 7. -/
theorem artifact_name_order_matches_index_witness :
    (3 : Nat) ≤ 9999 ∧ (7 : Nat) ≤ 9999
    ∧ ((lexLt (batchName 3) (batchName 7) = true) ↔ 3 < 7) :=
  ⟨by decide, by decide, artifact_name_order_matches_index 3 7 (by decide) (by decide)⟩

/-- C6 counterexample: with `inspireid` present on one feature of the
collection, the column exists, so a feature individually lacking the
field gets a null `id` — not its positional index "1" as the claim
states. -/
theorem normalize_per_feature_fallback_fails :
    (normInspire (fun g => g)
        [⟨[("inspireid", Value.str "PT.123")], Value.null⟩, ⟨[], Value.null⟩]).map
        (fun c => c.id)
      = [Value.str "PT.123", Value.null]
    ∧ Value.null ≠ Value.str "1" := by
  constructor
  · decide
  · decide

/-- C6 (amended): attribute lookup is column-level, not per-feature.
Each canonical field of feature `i` comes from the source column when
it is present anywhere in the source collection — the cell being null
when that feature lacks the key — and from the default (the stringified
positional index for `id`, `""` for `reference`, null for `area_m2`)
only when the column is absent from the entire collection. -/
theorem normalize_fieldmap (reproj : Value → Value) (fs : List Feature) (i : Nat)
    (f : Feature) (hf : fs[i]? = some f) :
    (normInspire reproj fs)[i]? = some
      ⟨if columnPresent fs "inspireid" then getCell f "inspireid"
          else Value.str (toString i),
       if columnPresent fs "nationalcadastralreference" then
          getCell f "nationalcadastralreference"
        else Value.str "",
       if columnPresent fs "areavalue" then getCell f "areavalue" else Value.null,
       "inspire",
       reproj f.geom⟩ := by
  unfold normInspire
  rw [List.getElem?_map, List.getElem?_enum, hf]
  rfl

/-- Witness for C6: the claim's own example feature maps to
`id = "PT.123"`, `reference = "REF1"`, `area_m2 = 450.2`,
`source = "inspire"`. -/
theorem normalize_fieldmap_witness :
    (normInspire (fun g => g)
        [⟨[("inspireid", Value.str "PT.123"),
           ("nationalcadastralreference", Value.str "REF1"),
           ("areavalue", Value.num 450.2)], Value.null⟩])[0]?
      = some ⟨Value.str "PT.123", Value.str "REF1", Value.num 450.2,
              "inspire", Value.null⟩ := by
  have h := normalize_fieldmap (fun g => g)
    [⟨[("inspireid", Value.str "PT.123"),
       ("nationalcadastralreference", Value.str "REF1"),
       ("areavalue", Value.num 450.2)], Value.null⟩] 0
    ⟨[("inspireid", Value.str "PT.123"),
      ("nationalcadastralreference", Value.str "REF1"),
      ("areavalue", Value.num 450.2)], Value.null⟩ rfl
  rw [h]
  rfl

/-- C8 counterexample: an empty INSPIRE artifact directory makes the
merge raise (`pd.concat` of no objects), rather than yielding an empty
contribution, and the RGG source's feature is not produced. -/
theorem merge_raises_on_empty_inspire_dir :
    normalizeAndMerge (fun g => g) [] [(1, [⟨[], Value.null⟩])]
      = Except.error "No objects to concatenate" := rfl

/-- C8 (amended): a source directory with zero batch artifacts aborts
the whole merge with `ValueError: No objects to concatenate`; no empty
raw collection is substituted, and no other source's contribution is
produced. -/
theorem merge_errors_on_empty_source_dir (reproj : Value → Value)
    (iDir rDir : List (Nat × List Feature)) (h : iDir = [] ∨ rDir = []) :
    normalizeAndMerge reproj iDir rDir = Except.error "No objects to concatenate" := by
  rcases h with h | h
  · subst h
    rfl
  · subst h
    unfold normalizeAndMerge
    cases hres : readSourceDir iDir with
    | error e =>
      have he : e = "No objects to concatenate" := by
        unfold readSourceDir pdConcat at hres
        split at hres
        · exact (Except.error.injEq _ _).mp hres.symm
        · exact Except.noConfusion hres
      subst he
      rfl
    | ok v => rfl

/-- Witness for C8: concrete empty INSPIRE directory with a nonempty
RGG directory. -/
theorem merge_errors_on_empty_source_dir_witness :
    normalizeAndMerge (fun g => g) [] [(2, [])]
      = Except.error "No objects to concatenate" :=
  merge_errors_on_empty_source_dir (fun g => g) [] [(2, [])] (Or.inl rfl)

/-- C7 counterexample: with INSPIRE batches 9999 and 10000, the merge
emits batch 10000's feature before batch 9999's (file-name order), so
the merged output is not the ascending-batch-index concatenation the
claim states. -/
theorem merge_not_always_ascending :
    normalizeAndMerge (fun g => g)
        [(9999, [⟨[], Value.num 1⟩]), (10000, [⟨[], Value.num 2⟩])]
        [(1, [⟨[], Value.num 3⟩])]
      = Except.ok
          [⟨Value.str "0", Value.str "", Value.null, "inspire", Value.num 2⟩,
           ⟨Value.str "1", Value.str "", Value.null, "inspire", Value.num 1⟩,
           ⟨Value.str "0", Value.str "", Value.null, "rgg", Value.num 3⟩]
    ∧ normInspire (fun g => g)
          (ascFeatures [(9999, [⟨[], Value.num 1⟩]), (10000, [⟨[], Value.num 2⟩])])
        ++ normRgg (ascFeatures [(1, [⟨[], Value.num 3⟩])])
      = [⟨Value.str "0", Value.str "", Value.null, "inspire", Value.num 1⟩,
         ⟨Value.str "1", Value.str "", Value.null, "inspire", Value.num 2⟩,
         ⟨Value.str "0", Value.str "", Value.null, "rgg", Value.num 3⟩]
    ∧ (⟨Value.str "0", Value.str "", Value.null, "inspire", Value.num 2⟩ : CanonicalFeature)
        ≠ ⟨Value.str "0", Value.str "", Value.null, "inspire", Value.num 1⟩ := by
  refine ⟨rfl, rfl, ?_⟩
  intro h
  have := (CanonicalFeature.mk.injEq _ _ _ _ _ _ _ _ _ _).mp h
  have hg : Value.num (1 : ℚ) = Value.num 2 := this.2.2.2.2.symm
  have : (1 : ℚ) = 2 := Value.num.inj hg
  norm_num at this

/-- C7 (amended): for artifact directories whose batch indices are
distinct and at most 9999, the merged output is exactly the INSPIRE
canonical sequence followed by the RGG canonical sequence, each source
ordered by ascending batch index and, within a batch, by the batch's
internal feature order. -/
theorem merge_is_ordered_concat (reproj : Value → Value)
    (iDir rDir : List (Nat × List Feature))
    (hib : ∀ p ∈ iDir, p.1 ≤ 9999) (hin : (iDir.map Prod.fst).Nodup) (hine : iDir ≠ [])
    (hrb : ∀ p ∈ rDir, p.1 ≤ 9999) (hrn : (rDir.map Prod.fst).Nodup) (hrne : rDir ≠ []) :
    normalizeAndMerge reproj iDir rDir
      = Except.ok (normInspire reproj (ascFeatures iDir) ++ normRgg (ascFeatures rDir)) := by
  have hie : sortByIdx iDir ≠ [] := by
    intro hnil
    have hperm : List.Perm (sortByIdx iDir) iDir := List.perm_insertionSort idxLe iDir
    rw [hnil] at hperm
    exact hine (List.Perm.eq_nil hperm.symm)
  have hre : sortByIdx rDir ≠ [] := by
    intro hnil
    have hperm : List.Perm (sortByIdx rDir) rDir := List.perm_insertionSort idxLe rDir
    rw [hnil] at hperm
    exact hrne (List.Perm.eq_nil hperm.symm)
  obtain ⟨x, xs, hx⟩ := List.exists_cons_of_ne_nil hie
  obtain ⟨y, ys, hy⟩ := List.exists_cons_of_ne_nil hre
  unfold normalizeAndMerge readSourceDir pdConcat ascFeatures
  rw [sortByName_eq_sortByIdx iDir hib hin, sortByName_eq_sortByIdx rDir hrb hrn, hx, hy]
  rfl

/-- Witness for C7: INSPIRE contributes 2 features (A0, A1), RGG
contributes 3 (B0, B1, B2); the merge is exactly [A0, A1, B0, B1, B2]. -/
theorem merge_is_ordered_concat_witness :
    normalizeAndMerge (fun g => g)
        [(1, [⟨[("inspireid", Value.str "A0")], Value.null⟩]),
         (2, [⟨[("inspireid", Value.str "A1")], Value.null⟩])]
        [(1, [⟨[("objectid", Value.str "B0")], Value.null⟩,
              ⟨[("objectid", Value.str "B1")], Value.null⟩,
              ⟨[("objectid", Value.str "B2")], Value.null⟩])]
      = Except.ok
          (normInspire (fun g => g)
              (ascFeatures [(1, [⟨[("inspireid", Value.str "A0")], Value.null⟩]),
                            (2, [⟨[("inspireid", Value.str "A1")], Value.null⟩])])
            ++ normRgg
              (ascFeatures [(1, [⟨[("objectid", Value.str "B0")], Value.null⟩,
                                 ⟨[("objectid", Value.str "B1")], Value.null⟩,
                                 ⟨[("objectid", Value.str "B2")], Value.null⟩])]))
    ∧ normInspire (fun g => g)
          (ascFeatures [(1, [⟨[("inspireid", Value.str "A0")], Value.null⟩]),
                        (2, [⟨[("inspireid", Value.str "A1")], Value.null⟩])])
        ++ normRgg
          (ascFeatures [(1, [⟨[("objectid", Value.str "B0")], Value.null⟩,
                             ⟨[("objectid", Value.str "B1")], Value.null⟩,
                             ⟨[("objectid", Value.str "B2")], Value.null⟩])])
      = [⟨Value.str "A0", Value.str "", Value.null, "inspire", Value.null⟩,
         ⟨Value.str "A1", Value.str "", Value.null, "inspire", Value.null⟩,
         ⟨Value.str "B0", Value.str "", Value.null, "rgg", Value.null⟩,
         ⟨Value.str "B1", Value.str "", Value.null, "rgg", Value.null⟩,
         ⟨Value.str "B2", Value.str "", Value.null, "rgg", Value.null⟩] := by
  constructor
  · exact merge_is_ordered_concat (fun g => g) _ _
      (by decide) (by decide) (by decide) (by decide) (by decide) (by decide)
  · rfl

/-- C1 counterexample: in the root copy (`src/scraper.py`) the batch
fetch has no artifact-existence check — re-invoking it over a directory
that already holds batch 1's artifact issues a page request for batch 1
anyway. -/
theorem root_refetches_existing_artifact :
    ((fsWrite emptyFs 1 []) 1).isSome = true
    ∧ (runFetch downloadBatchRoot (fun _ => HttpResult.timeout)
          (fsWrite emptyFs 1 []) [1]).requests = [1] :=
  ⟨rfl, rfl⟩

/-- C1 (amended): the pkg copy (`src/src/portugal_parcels/scraper.py`)
satisfies the resumption invariant: a batch whose artifact exists gets
no page request and reports success, and — when the pre-existing
artifacts are ones this oracle would produce and lie inside the batch
range — the final artifact state equals that of a single uninterrupted
run from an empty directory.  The root copy does not (see the
counterexample). -/
theorem pkg_resumption_invariant (oracle : Nat → HttpResult) (fs0 : Fs)
    (batches : List Nat) (hnd : batches.Nodup)
    (hagree : ∀ c d, fs0 c = some d → successDoc oracle c = some d)
    (hsupp : ∀ c, fs0 c ≠ none → c ∈ batches) :
    (∀ b d, fs0 b = some d →
        b ∉ (runFetch downloadBatchPkg oracle fs0 batches).requests
        ∧ (b ∈ batches → (b, true) ∈ (runFetch downloadBatchPkg oracle fs0 batches).reports))
    ∧ ∀ b, (runFetch downloadBatchPkg oracle fs0 batches).fs b
        = (runFetch downloadBatchPkg oracle emptyFs batches).fs b := by
  constructor
  · intro b d hbd
    constructor
    · rw [runFetch_pkg_requests oracle batches fs0 hnd]
      intro hmem
      have hpred := (List.mem_filter.mp hmem).2
      rw [hbd] at hpred
      simp at hpred
    · intro hb
      rw [runFetch_pkg_reports oracle batches fs0 hnd]
      have hmm := List.mem_map_of_mem
        (fun b => (b, ((fs0 b).isSome || (successDoc oracle b).isSome))) hb
      simpa [hbd] using hmm
  · intro b
    rw [runFetch_pkg_fs, runFetch_pkg_fs]
    by_cases hb : b ∈ batches
    · simp only [hb, if_true]
      cases hfs : fs0 b with
      | none => rfl
      | some d =>
        rw [hagree b d hfs]
        rfl
    · simp only [hb, if_false]
      by_cases hfs : fs0 b = none
      · rw [hfs]
        rfl
      · exact absurd (hsupp b hfs) hb

/-- Witness for C1: batch 1's artifact pre-exists (with the content the
oracle would serve); the pkg fetch over batches [1, 2] requests nothing
for batch 1 and ends in the same artifact state as a fresh run. -/
theorem pkg_resumption_invariant_witness :
    1 ∉ (runFetch downloadBatchPkg (fun _ => HttpResult.response 200 (some []))
          (fsWrite emptyFs 1 []) [1, 2]).requests
    ∧ (runFetch downloadBatchPkg (fun _ => HttpResult.response 200 (some []))
          (fsWrite emptyFs 1 []) [1, 2]).fs 1
      = (runFetch downloadBatchPkg (fun _ => HttpResult.response 200 (some []))
          emptyFs [1, 2]).fs 1 := by
  have h := pkg_resumption_invariant (fun _ => HttpResult.response 200 (some []))
    (fsWrite emptyFs 1 []) [1, 2] (by decide)
    (fun c d hcd => by
      unfold fsWrite emptyFs at hcd
      by_cases hc : c = 1
      · subst hc
        simp only [if_pos rfl] at hcd
        injection hcd with hd
        rw [← hd]
        rfl
      · simp [hc] at hcd)
    (fun c hc => by
      unfold fsWrite emptyFs at hc
      by_cases h1 : c = 1
      · subst h1
        simp
      · simp [h1] at hc)
  exact ⟨(h.1 1 [] (by simp [fsWrite])).1, h.2 1⟩

/-- C4: a batch whose page request fails (non-200 status, timeout,
transport error or parse failure — `successDoc` is `none`) is recorded
as failed and leaves no artifact; every batch still gets exactly one
report in order, at most one page request is issued for the failed
batch (no retry), and every other batch's outcome is exactly what its
own artifact state and response dictate, unaffected by the failure.
`download_batch` is a total function: the `except Exception` handler
means no exception escapes it. -/
theorem batch_failure_isolated (oracle : Nat → HttpResult) (fs0 : Fs)
    (batches : List Nat) (hnd : batches.Nodup) (b : Nat) (hb : b ∈ batches)
    (hfail : successDoc oracle b = none) (hnoart : fs0 b = none) :
    (runFetch downloadBatchPkg oracle fs0 batches).fs b = none
    ∧ (b, false) ∈ (runFetch downloadBatchPkg oracle fs0 batches).reports
    ∧ (runFetch downloadBatchPkg oracle fs0 batches).reports.map Prod.fst = batches
    ∧ (runFetch downloadBatchPkg oracle fs0 batches).requests.count b ≤ 1
    ∧ (∀ c, c ∈ batches →
        (c, ((fs0 c).isSome || (successDoc oracle c).isSome))
          ∈ (runFetch downloadBatchPkg oracle fs0 batches).reports) := by
  refine ⟨?_, ?_, ?_, ?_, ?_⟩
  · rw [runFetch_pkg_fs]
    simp [hb, hnoart, hfail, Option.or]
  · rw [runFetch_pkg_reports oracle batches fs0 hnd]
    have hmm := List.mem_map_of_mem
      (fun b => (b, ((fs0 b).isSome || (successDoc oracle b).isSome))) hb
    simpa [hnoart, hfail] using hmm
  · rw [runFetch_pkg_reports oracle batches fs0 hnd, List.map_map]
    exact List.map_id batches
  · rw [runFetch_pkg_requests oracle batches fs0 hnd]
    exact List.nodup_iff_count_le_one.mp (hnd.filter _) b
  · intro c hc
    rw [runFetch_pkg_reports oracle batches fs0 hnd]
    exact List.mem_map_of_mem _ hc

/-- Witness for C4: batch 2 of [1, 2, 3] times out permanently; it is
reported failed with no artifact, while batches 1 and 3 are reported
and the report list covers [1, 2, 3] in order. -/
theorem batch_failure_isolated_witness :
    (runFetch downloadBatchPkg
        (fun b => if b = 2 then HttpResult.timeout else HttpResult.response 200 (some []))
        emptyFs [1, 2, 3]).fs 2 = none
    ∧ (2, false) ∈ (runFetch downloadBatchPkg
        (fun b => if b = 2 then HttpResult.timeout else HttpResult.response 200 (some []))
        emptyFs [1, 2, 3]).reports
    ∧ (runFetch downloadBatchPkg
        (fun b => if b = 2 then HttpResult.timeout else HttpResult.response 200 (some []))
        emptyFs [1, 2, 3]).reports.map Prod.fst = [1, 2, 3]
    ∧ (1, true) ∈ (runFetch downloadBatchPkg
        (fun b => if b = 2 then HttpResult.timeout else HttpResult.response 200 (some []))
        emptyFs [1, 2, 3]).reports := by
  have h := batch_failure_isolated
    (fun b => if b = 2 then HttpResult.timeout else HttpResult.response 200 (some []))
    emptyFs [1, 2, 3] (by decide) 2 (by simp) rfl rfl
  refine ⟨h.1, h.2.1, h.2.2.1, ?_⟩
  have h1 := h.2.2.2.2 1 (by simp)
  simpa using h1

/-- C10 counterexample: over the same prior state — batch 1's artifact
already on disk — the pkg copy issues no page request while the root
copy issues one: the two `download_batch` implementations are not
equivalent. -/
theorem copies_differ_on_existing_artifact :
    (downloadBatchPkg (fun _ => HttpResult.timeout) (fsWrite emptyFs 1 []) 1).requests = []
    ∧ (downloadBatchRoot (fun _ => HttpResult.timeout) (fsWrite emptyFs 1 []) 1).requests
      = [1] :=
  ⟨rfl, rfl⟩

/-- C10 (amended): the two copies agree — same page requests, same
artifact state, same return value — exactly when the batch's artifact
does not already exist; when it exists the pkg copy skips and the root
copy re-fetches. -/
theorem copies_agree_when_artifact_absent (oracle : Nat → HttpResult) (fs : Fs) (b : Nat)
    (h : fs b = none) :
    downloadBatchRoot oracle fs b = downloadBatchPkg oracle fs b := by
  unfold downloadBatchRoot downloadBatchPkg
  rw [h]
  rfl

/-- Witness for C10: on an empty directory the two copies behave
identically for batch 3. -/
theorem copies_agree_when_artifact_absent_witness :
    downloadBatchRoot (fun _ => HttpResult.timeout) emptyFs 3
      = downloadBatchPkg (fun _ => HttpResult.timeout) emptyFs 3 :=
  copies_agree_when_artifact_absent (fun _ => HttpResult.timeout) emptyFs 3 rfl

/-- C5 counterexample: a well-formed count response lacking the count
field does not fail — both discoveries silently default the total to 0
(there is no `CountDiscoveryError` anywhere in the code). -/
theorem count_discovery_missing_field_not_error :
    inspireDiscover (XmlCountResponse.parsed []) = Except.ok 0
    ∧ rggDiscover (JsonCountResponse.obj []) = Except.ok 0 :=
  ⟨rfl, rfl⟩

/-- C5 (amended): a malformed count response raises the underlying
parse exception uncaught (not a `CountDiscoveryError`, which does not
exist), aborting the fetch before any batch; a well-formed response
lacking the count field yields total 0, so the fetch completes with
zero batch requests and no error. -/
theorem count_discovery_behaviour :
    (∀ attrs, attrs.lookup "numberMatched" = none →
        inspireDiscover (XmlCountResponse.parsed attrs) = Except.ok 0)
    ∧ (∀ fields, fields.lookup "count" = none →
        rggDiscover (JsonCountResponse.obj fields) = Except.ok 0)
    ∧ inspireDiscover XmlCountResponse.malformed
        = Except.error "xml.etree.ElementTree.ParseError"
    ∧ rggDiscover JsonCountResponse.malformed = Except.error "json.JSONDecodeError"
    ∧ fetchPlan 0 50000 = [] ∧ fetchPlan 0 2000 = [] := by
  refine ⟨?_, ?_, rfl, rfl, rfl, rfl⟩
  · intro attrs h
    have he : inspireDiscover (XmlCountResponse.parsed attrs)
        = (match attrs.lookup "numberMatched" with
           | none => Except.ok 0
           | some s =>
             match s.toNat? with
             | some n => Except.ok n
             | none => Except.error "ValueError") := rfl
    rw [he, h]
  · intro fields h
    have he : rggDiscover (JsonCountResponse.obj fields)
        = Except.ok ((fields.lookup "count").getD 0) := rfl
    rw [he, h]
    rfl

/-- Witness for C5: concrete responses carrying other fields but not
the count field. -/
theorem count_discovery_behaviour_witness :
    inspireDiscover (XmlCountResponse.parsed [("foo", "1")]) = Except.ok 0
    ∧ rggDiscover (JsonCountResponse.obj [("bar", 7)]) = Except.ok 0 := by
  have h := count_discovery_behaviour
  exact ⟨h.1 [("foo", "1")] rfl, h.2.1 [("bar", 7)] rfl⟩
